import Mathlib

/-!
Verification of the state-serialization core of the `py-job` repository
(`modelrunner/state.py` and `modelrunner/storage/trajectory.py`).

The Python code is shallowly embedded: Python values that can appear as state
payloads are modelled by `PyObj`, numpy arrays by `NdArr` (shape plus flat
integer entries; `np.array_equal` compares shape and entries, which matches
structural equality of `NdArr`), attribute dictionaries by ordered association
lists `AttrMap`, and the zarr storage collaborator by the tree type `ZarrNode`.
Fallible Python code is modelled with `Except PyErr`; warnings emitted via
`warnings.warn` are collected in a `List Warn` result component.
-/

/-- Python exceptions that the modelled code can raise. -/
inductive PyErr where
  | keyError (key : String)
  | valueError
  | typeError
  | assertionError
  | indexError
  | runtimeError
  | attributeError
  | notImplementedError
deriving DecidableEq, Repr

/-- Warnings emitted via `warnings.warn` in `state.py`. -/
inductive Warn where
  | versionMismatch
  | unusedAttributes
deriving DecidableEq, Repr

/-- A numpy `ndarray`: its shape and its flat list of (integer) entries.
`np.array_equal` compares shapes and entries, i.e. structural equality here. -/
structure NdArr where
  shape : List Nat
  entries : List Int
deriving DecidableEq, Repr

/-- Model of `np.array_equal` (state.py:46): shapes equal and entries equal. -/
def npArrayEqual (a b : NdArr) : Bool :=
  a.shape == b.shape && a.entries == b.entries

/-- Non-state Python values that can be held by an `ObjectState` or appended to
a trajectory: `None`, booleans, integers, floats (modelled as rationals),
strings, and numpy arrays. -/
inductive PyObj where
  | none
  | bool (b : Bool)
  | int (n : Int)
  | float (q : ℚ)
  | str (s : String)
  | nd (a : NdArr)
deriving DecidableEq, Repr

/-- Whether a `PyObj` is a numpy array (`isinstance(data, np.ndarray)`). -/
def PyObj.isNd : PyObj → Bool
  | .nd _ => true
  | _ => false

/-- Model of `_equals` (state.py:29) on two opaque payload values: first the
`left.__class__ is not right.__class__` check (distinct constructors model
distinct Python classes; note `bool` is not `int`, so `1 == True` is rejected
by the class check even though Python `==` would accept it), then value
equality, with `np.array_equal` for arrays. -/
def pyObjEquals : PyObj → PyObj → Bool
  | .none, .none => true
  | .bool a, .bool b => a == b
  | .int a, .int b => a == b
  | .float a, .float b => a == b
  | .str a, .str b => a == b
  | .nd a, .nd b => npArrayEqual a b
  | _, _ => false

/-- Values storable in a zarr attribute map: JSON-representable scalars plus
the tuples/lists of strings used for `labels` and `__keys__`.  Python `==`
distinguishes a tuple from a list, hence two constructors. -/
inductive AttrVal where
  | str (s : String)
  | int (n : Int)
  | strTuple (l : List String)
  | strList (l : List String)
deriving DecidableEq, Repr

/-- An ordered attribute dictionary (Python dicts preserve insertion order). -/
def AttrMap : Type := List (String × AttrVal)

instance : DecidableEq AttrMap := by unfold AttrMap; infer_instance

instance : Repr AttrMap := by unfold AttrMap; infer_instance

instance : Append AttrMap := ⟨List.append⟩

/-- Dictionary lookup: the first binding of the key. -/
def AttrMap.lookup (m : AttrMap) (k : String) : Option AttrVal :=
  match m with
  | [] => Option.none
  | p :: rest => if p.1 = k then some p.2 else AttrMap.lookup rest k

/-- Dictionary key removal, as by `dict.pop` of a present key. -/
def AttrMap.erase (m : AttrMap) (k : String) : AttrMap :=
  match m with
  | [] => []
  | p :: rest => if p.1 = k then AttrMap.erase rest k else p :: AttrMap.erase rest k

/-- Whether the dictionary has the key (`k in d`). -/
def AttrMap.hasKey (m : AttrMap) (k : String) : Bool :=
  (m.lookup k).isSome

/-- Setting a key, as by `d[k] = v`: overwrite in place if present, else append. -/
def AttrMap.set (m : AttrMap) (k : String) (v : AttrVal) : AttrMap :=
  match m with
  | [] => [(k, v)]
  | p :: rest => if p.1 = k then (k, v) :: rest else p :: AttrMap.set rest k v

/-- Number of entries (`len(d)`); the maps built here have distinct keys. -/
def AttrMap.size (m : AttrMap) : Nat :=
  match m with
  | [] => 0
  | _ :: rest => AttrMap.size rest + 1

/-- Python `dict == dict`: same keys (as a set) and equal value at each key. -/
def AttrMap.dictEq (a b : AttrMap) : Bool :=
  (a.all fun p => b.lookup p.1 == a.lookup p.1) &&
    (b.all fun p => a.lookup p.1 == b.lookup p.1)

/-!
The state model of `state.py`.  The four concrete variants are the
constructors; the second (active) definition of `ArrayCollectionState`
(state.py:504) is the one modelled, since in Python the later class
definition shadows the earlier one both as a module name and in the
`_state_classes` registry.  `DictState` data is a key-ordered dictionary,
given its own spine type `StateDict` so that all recursion is structural.
-/

mutual
inductive State where
  | objectState (data : PyObj)
  | arrayState (data : Option NdArr)
  | arrayCollectionState (data : List NdArr) (labels : List String)
  | dictState (data : StateDict)
deriving Repr
inductive StateDict where
  | nil
  | cons (key : String) (val : State) (rest : StateDict)
deriving Repr
end

/-- Ordered key list of a `DictState` payload (`list(self.data.keys())`). -/
def StateDict.keys : StateDict → List String
  | .nil => []
  | .cons k _ rest => k :: rest.keys

/-- Number of entries of the dictionary. -/
def StateDict.size : StateDict → Nat
  | .nil => 0
  | .cons _ _ rest => rest.size + 1

/-- Lookup of a key in a `DictState` payload. -/
def StateDict.lookup : StateDict → String → Option State
  | .nil, _ => Option.none
  | .cons k v rest, j => if k = j then some v else rest.lookup j

/-- The registered class name of the variant (`self.__class__.__name__`). -/
def State.className : State → String
  | .objectState _ => "ObjectState"
  | .arrayState _ => "ArrayState"
  | .arrayCollectionState _ _ => "ArrayCollectionState"
  | .dictState _ => "DictState"

/-- The process-wide registry `StateBase._state_classes` (state.py:81,105):
each concrete subclass registers itself under its own name; both
`ArrayCollectionState` definitions register under the same name, the second
overwriting the first. -/
def registeredClassNames : List String :=
  ["ObjectState", "ArrayState", "ArrayCollectionState", "DictState"]

/-- Whether the variant is the (active) `ArrayCollectionState` class. -/
def State.isArrayCollection : State → Bool
  | .arrayCollectionState _ _ => true
  | _ => false

/-- Model of `_attributes_store` (state.py:90): the variant-specific
`attributes` dictionary augmented with the reserved class tag and format
version keys.  `ArrayCollectionState.attributes` adds `labels` (a tuple of
strings, state.py:533) and `DictState.attributes` adds `__keys__` (a list of
strings, state.py:639); the format version is the constant 1 (state.py:78). -/
def State.attributesStore : State → AttrMap
  | .objectState _ =>
      [("__class__", .str "ObjectState"), ("__version__", .int 1)]
  | .arrayState _ =>
      [("__class__", .str "ArrayState"), ("__version__", .int 1)]
  | .arrayCollectionState _ labels =>
      [("labels", .strTuple labels), ("__class__", .str "ArrayCollectionState"),
       ("__version__", .int 1)]
  | .dictState d =>
      [("__keys__", .strList d.keys), ("__class__", .str "DictState"),
       ("__version__", .int 1)]

/-- Membership of a string in a list, computably. -/
def listContains : List String → String → Bool
  | [], _ => false
  | x :: xs, k => x == k || listContains xs k

/-- Nodup check on a list of strings, computably
(`len(labels) == len(set(labels))`). -/
def nodupKeys : List String → Bool
  | [] => true
  | k :: rest => !(listContains rest k) && nodupKeys rest

mutual
/-- States actually constructible and writable in Python: the
`ArrayCollectionState` constructor asserts
`len(data) == len(labels) == len(set(labels))` (state.py:524), `DictState`
payloads are Python dicts (distinct keys), and `ArrayState` needs an actual
array for `_write_zarr_data` to succeed. -/
def State.valid : State → Bool
  | .objectState _ => true
  | .arrayState a => a.isSome
  | .arrayCollectionState data labels =>
      data.length == labels.length && nodupKeys labels
  | .dictState d => nodupKeys d.keys && d.valid
def StateDict.valid : StateDict → Bool
  | .nil => true
  | .cons _ v rest => v.valid && rest.valid
end

/-- Elementwise comparison of two tuples of arrays, as `_equals` does via the
`__iter__` branch (state.py:58): equal lengths and `np.array_equal` pairwise. -/
def arrListEqual (xs ys : List NdArr) : Bool :=
  xs.length == ys.length && (List.zip xs ys).all fun p => npArrayEqual p.1 p.2

/-- Key-set inclusion (`left.keys() == right.keys()` compares as sets). -/
def keysSubset (ks : List String) (e : StateDict) : Bool :=
  ks.all fun k => (e.lookup k).isSome

/-- Comparison of the `_data_store` payloads of two `ArrayState`s by
`_equals`: two arrays via `np.array_equal`, two `None`s via `==`, and a
mixture fails the class-identity check. -/
def optArrEqual : Option NdArr → Option NdArr → Bool
  | Option.none, Option.none => true
  | some x, some y => npArrayEqual x y
  | _, _ => false

mutual
/-- Model of `_equals` (state.py:29) applied to two states: the class-identity
check (state.py:39), then the `StateBase` branch (state.py:53): equal
`_attributes_store` dictionaries and recursively equal `_data_store` payloads.
Payload comparison per variant follows the later `_equals` branches: opaque
values by class-checked `==`, arrays by `np.array_equal`, array tuples
elementwise, and dict payloads by key-set equality plus per-key recursion
(state.py:48). -/
def statesEqual : State → State → Bool
  | .objectState a, .objectState b =>
      AttrMap.dictEq (State.objectState a).attributesStore
        (State.objectState b).attributesStore && pyObjEquals a b
  | .arrayState a, .arrayState b =>
      AttrMap.dictEq (State.arrayState a).attributesStore
        (State.arrayState b).attributesStore && optArrEqual a b
  | .arrayCollectionState xs ls, .arrayCollectionState ys ms =>
      AttrMap.dictEq (State.arrayCollectionState xs ls).attributesStore
        (State.arrayCollectionState ys ms).attributesStore && arrListEqual xs ys
  | .dictState d, .dictState e =>
      AttrMap.dictEq (State.dictState d).attributesStore
        (State.dictState e).attributesStore &&
      (keysSubset d.keys e && keysSubset e.keys d && dictValuesEqual d e)
  | _, _ => false
/-- The `all(_equals(left[key], right[key]) for key in left)` part of the dict
branch of `_equals` (state.py:49). -/
def dictValuesEqual : StateDict → StateDict → Bool
  | .nil, _ => true
  | .cons k v rest, e =>
      (match e.lookup k with
       | some w => statesEqual v w
       | Option.none => false) && dictValuesEqual rest e
end

/-- The rows of an array along its leading axis (`other.data[i]` when an
`ndarray` is iterated / zipped over). -/
def NdArr.rows (a : NdArr) : List NdArr :=
  match a.shape with
  | [] => []
  | h :: tl => (List.range h).map fun i =>
      NdArr.mk tl ((a.entries.drop (i * tl.prod)).take tl.prod)

/-- The `ArrayCollectionState.__eq__` comparison (state.py:527) when `other`
exposes an `ndarray` as `data`: `len` is the leading dimension (`TypeError`,
modelled as `Option.none`, on a 0-d array) and `zip` pairs the tuple entries
with the rows. -/
def acsEqArr (ds : List NdArr) (a : NdArr) : Option Bool :=
  match a.shape with
  | [] => Option.none
  | h :: _ =>
      some (ds.length == h && (List.zip ds a.rows).all fun p => npArrayEqual p.1 p.2)

/-- Model of `ArrayCollectionState.__eq__` (state.py:527, the active second
class definition): `len(self.data) == len(other.data) and
all(np.array_equal(s, o) for s, o in zip(self.data, other.data))`.  There is
no class check and no label comparison.  Against other variants, `len` and
iteration of `other.data` follow Python: a dict yields its keys (an array
never equals a string, so each pairwise comparison is false), a string yields
characters, and unsized objects raise `TypeError` (`Option.none`). -/
def acsEqOp (ds : List NdArr) : State → Option Bool
  | .arrayCollectionState es _ => some (arrListEqual ds es)
  | .arrayState (some a) => acsEqArr ds a
  | .arrayState Option.none => Option.none
  | .objectState (.nd a) => acsEqArr ds a
  | .objectState (.str s) =>
      some (ds.length == s.length && (List.zip ds s.toList).all fun _ => false)
  | .objectState _ => Option.none
  | .dictState d =>
      some (ds.length == d.size && (List.zip ds d.keys).all fun _ => false)

/-- Model of the Python expression `s == t` on two states: Python evaluates
`type(s).__eq__(s, t)`, which is the override for `ArrayCollectionState`
(state.py:527) and `StateBase.__eq__ = _equals` (state.py:110) for every other
variant.  `Option.none` models an exception escaping the comparison. -/
def stateEqOp (s : State) (t : State) : Option Bool :=
  match s with
  | .arrayCollectionState ds _ => acsEqOp ds t
  | _ => some (statesEqual s t)

mutual
/-- Equality of states as the specification words it: the two states are
instances of the same concrete variant, their stored attribute maps are equal,
and their data payloads are equal element-wise, numeric arrays being compared
by full-array value equality and nested states recursively. -/
def specStateEq : State → State → Bool
  | .objectState a, .objectState b =>
      AttrMap.dictEq (State.objectState a).attributesStore
        (State.objectState b).attributesStore && pyObjEquals a b
  | .arrayState a, .arrayState b =>
      AttrMap.dictEq (State.arrayState a).attributesStore
        (State.arrayState b).attributesStore && optArrEqual a b
  | .arrayCollectionState xs ls, .arrayCollectionState ys ms =>
      AttrMap.dictEq (State.arrayCollectionState xs ls).attributesStore
        (State.arrayCollectionState ys ms).attributesStore && arrListEqual xs ys
  | .dictState d, .dictState e =>
      AttrMap.dictEq (State.dictState d).attributesStore
        (State.dictState e).attributesStore &&
      (keysSubset d.keys e && keysSubset e.keys d && specDictValuesEq d e)
  | _, _ => false
/-- Element-wise comparison of two dict payloads under the specification
equality: every key of one is a key of the other and the nested states at
equal keys are recursively equal. -/
def specDictValuesEq : StateDict → StateDict → Bool
  | .nil, _ => true
  | .cons k v rest, e =>
      (match e.lookup k with
       | some w => specStateEq v w
       | Option.none => false) && specDictValuesEq rest e
end

/-- Input universe of `make_state` (state.py:733): an existing state instance,
or any other value, among which numpy arrays are singled out. -/
inductive PyVal where
  | state (s : State)
  | val (o : PyObj)
deriving Repr

/-- Model of `make_state` (state.py:733): a state is returned unchanged, a
numpy array is wrapped in an `ArrayState`, anything else in an `ObjectState`. -/
def make_state : PyVal → State
  | .state s => s
  | .val (.nd a) => .arrayState (some a)
  | .val o => .objectState o

/-!
The `from_state` constructors.  `StateBase.from_state` (state.py:113) is
inherited by `ObjectState` and `ArrayState`; `ArrayCollectionState`
(state.py:539) and `DictState` (state.py:645) override it completely.
-/

/-- The shared body of `StateBase.from_state` (state.py:121) for a concrete
class `cls` (so `cls.__name__ != "StateBase"`): reading `attributes["__class__"]`
raises `KeyError` when absent; a matching tag leads to the format-version and
unused-attribute warnings; a non-matching tag reaches the `else` branch
(state.py:144), whose error message indexes `attributes["class"]` — a
`KeyError` unless a key literally named `class` exists, in which case the
`ValueError` is raised. -/
def StateBase.from_state_checks (clsName : String) (attrs : AttrMap) :
    Except PyErr (List Warn) :=
  match attrs.lookup "__class__" with
  | Option.none => .error (.keyError "__class__")
  | some v =>
      if v = .str clsName then
        .ok ((if (attrs.lookup "__version__").getD (.int 0) = .int 1 then []
              else [Warn.versionMismatch]) ++
             (if attrs.size > 2 then [Warn.unusedAttributes] else []))
      else if attrs.hasKey "class" then .error .valueError
      else .error (.keyError "class")

/-- Model of `ObjectState.from_state` (inherited `StateBase.from_state`):
after the checks, `cls()` when data is `None` (an `ObjectState` holding
`None`), else `cls(data)`. -/
def ObjectState.from_state (attrs : AttrMap) (data : Option PyObj) :
    Except PyErr (List Warn × State) :=
  match StateBase.from_state_checks "ObjectState" attrs with
  | .error e => .error e
  | .ok w => .ok (w, .objectState (data.getD .none))

/-- Model of `ArrayState.from_state` (state.py:306): `np.asarray` is the
identity on an array, then the inherited `StateBase.from_state`. -/
def ArrayState.from_state (attrs : AttrMap) (data : Option NdArr) :
    Except PyErr (List Warn × State) :=
  match StateBase.from_state_checks "ArrayState" attrs with
  | .error e => .error e
  | .ok w => .ok (w, .arrayState data)

/-- Conversion of the popped `labels` attribute value to the label tuple built
by `tuple(labels)` in the constructor (state.py:525): tuples and lists of
strings directly, a string as its characters, and unsized values raise
`TypeError` in the `len(labels)` of the assert. -/
def labelsToList : AttrVal → Option (List String)
  | .strTuple l => some l
  | .strList l => some l
  | .str s => some (s.toList.map fun c => String.mk [c])
  | .int _ => Option.none

/-- Model of the active `ArrayCollectionState.from_state` (state.py:539).  The
second component of the result is the caller-supplied attribute dictionary
after the call: `labels = attributes.pop("labels")` mutates it in place (a
`KeyError` leaves it untouched).  There is no class-tag or version check; the
constructor asserts `len(data) == len(labels) == len(set(labels))`
(state.py:524). -/
def ArrayCollectionState.from_state (attrs : AttrMap) (data : Option (List NdArr)) :
    (Except PyErr (List Warn × State)) × AttrMap :=
  match attrs.lookup "labels" with
  | Option.none => (.error (.keyError "labels"), attrs)
  | some lv =>
      let rest := attrs.erase "labels"
      match labelsToList lv with
      | Option.none => (.error .typeError, rest)
      | some ls =>
          let ds := data.getD []
          if ds.length == ls.length && nodupKeys ls then
            (.ok ([], .arrayCollectionState ds ls), rest)
          else (.error .assertionError, rest)

/-- The `data` argument of `DictState.from_state`: a dict of states or a
sequence of states (anything else raises `TypeError`, like `None`). -/
inductive DictData where
  | dict (d : StateDict)
  | seq (xs : List State)
deriving Repr

/-- Enumerated dictionary `{str(i): v for i, v in enumerate(data)}` built by
the `DictState` constructor from a sequence (state.py:634). -/
def enumDict : List State → Nat → StateDict
  | [], _ => .nil
  | x :: xs, i => .cons (toString i) x (enumDict xs (i + 1))

/-- The dict `{k: v for k, v in zip(keys, data)}` (state.py:651); `zip`
truncates to the shorter argument. -/
def zipToDict : List String → List State → StateDict
  | k :: ks, x :: xs => .cons k x (zipToDict ks xs)
  | _, _ => .nil

/-- Model of `DictState.from_state` (state.py:645): `TypeError` for a missing
or non-collection `data`; `assert cls.__name__ == attributes["__class__"]`
(`KeyError` when the tag is absent, `AssertionError` on mismatch); a sequence
is zipped with `attributes["__keys__"]` when present, else keys are
enumerated.  No version check and no warning. -/
def DictState.from_state (attrs : AttrMap) (data : Option DictData) :
    Except PyErr (List Warn × State) :=
  match data with
  | Option.none => .error .typeError
  | some dd =>
      match attrs.lookup "__class__" with
      | Option.none => .error (.keyError "__class__")
      | some v =>
          if v ≠ .str "DictState" then .error .assertionError
          else
            match dd with
            | .dict d => .ok ([], .dictState d)
            | .seq xs =>
                match attrs.lookup "__keys__" with
                | Option.none => .ok ([], .dictState (enumDict xs 0))
                | some (.strList ks) => .ok ([], .dictState (zipToDict ks xs))
                | some (.strTuple ks) => .ok ([], .dictState (zipToDict ks xs))
                | some (.str s) =>
                    .ok ([], .dictState
                      (zipToDict (s.toList.map fun c => String.mk [c]) xs))
                | some (.int _) => .error .typeError

/-!
The zarr storage collaborator.  A written element is either an array node (a
numeric array, or a 0-d object array produced by the pickle object codec) or a
group with named children; both carry an attribute map.  Attribute maps pass
through JSON, which turns tuples into lists.
-/

/-- Payload of a zarr array node: a numeric array, or a single opaque object
held by a 0-d object-codec array (how `ObjectState._write_zarr_data` stores
its payload, state.py:253). -/
inductive ZArrData where
  | ndData (a : NdArr)
  | objData (o : PyObj)
deriving Repr

mutual
inductive ZarrNode where
  | zarray (attrs : AttrMap) (data : ZArrData)
  | zgroup (attrs : AttrMap) (children : ZChildren)
deriving Repr
inductive ZChildren where
  | nil
  | cons (key : String) (node : ZarrNode) (rest : ZChildren)
deriving Repr
end

/-- The attribute map of a zarr element. -/
def ZarrNode.attrs : ZarrNode → AttrMap
  | .zarray a _ => a
  | .zgroup a _ => a

/-- Replacing the attribute map of a zarr element. -/
def ZarrNode.withAttrs : ZarrNode → AttrMap → ZarrNode
  | .zarray _ d, a => .zarray a d
  | .zgroup _ c, a => .zgroup a c

/-- Lookup of a named child in a group (`zarr_element[label]`). -/
def ZChildren.find : ZChildren → String → Option ZarrNode
  | .nil, _ => Option.none
  | .cons k n rest, j => if k = j then some n else rest.find j

/-- JSON round-trip of an attribute value through the zarr attribute store:
a Python tuple is serialized as a JSON array and read back as a list. -/
def AttrVal.jsonize : AttrVal → AttrVal
  | .strTuple l => .strList l
  | v => v

/-- The attribute map as read back from zarr after JSON serialization. -/
def AttrMap.jsonize (m : AttrMap) : AttrMap :=
  m.map fun p => (p.1, p.2.jsonize)

/-- The attributes written onto a zarr element by `_write_zarr_attributes`
(state.py:149) with no extra `attrs` argument: the `_attributes_store`, as
later read back through JSON. -/
def State.zarrStoredAttrs (s : State) : AttrMap :=
  s.attributesStore.jsonize

/-- Children of the group written by `ArrayCollectionState._write_zarr_data`
(state.py:567): one attribute-less array node per `(label, array)` pair of
`zip(self.labels, self.data)` (which truncates like Python `zip`). -/
def arrayChildren : List String → List NdArr → ZChildren
  | l :: ls, d :: ds => .cons l (.zarray [] (.ndData d)) (arrayChildren ls ds)
  | _, _ => .nil

mutual
/-- Model of `StateBase._write_zarr` (state.py:165) for each variant: the
element written into the group, with the state's `_attributes_store` written
onto it.  `ObjectState` stores its payload through the object codec
(state.py:253), `ArrayState` stores its array (state.py:318) — a `None`
payload makes `zarr_group.array` raise —, `ArrayCollectionState` creates a
sub-group of plain array nodes (state.py:567), and `DictState` recursively
writes each child state under its key (state.py:678). -/
def State.write_zarr : State → Except PyErr ZarrNode
  | .objectState o => .ok (.zarray (State.objectState o).zarrStoredAttrs (.objData o))
  | .arrayState Option.none => .error .typeError
  | .arrayState (some a) =>
      .ok (.zarray (State.arrayState (some a)).zarrStoredAttrs (.ndData a))
  | .arrayCollectionState ds ls =>
      .ok (.zgroup (State.arrayCollectionState ds ls).zarrStoredAttrs
        (arrayChildren ls ds))
  | .dictState d =>
      match StateDict.write_zarr_children d with
      | .error e => .error e
      | .ok cs => .ok (.zgroup (State.dictState d).zarrStoredAttrs cs)
/-- The loop of `DictState._write_zarr_data` (state.py:682): each child state
written as a named child of the sub-group. -/
def StateDict.write_zarr_children : StateDict → Except PyErr ZChildren
  | .nil => .ok .nil
  | .cons k v rest =>
      match State.write_zarr v with
      | .error e => .error e
      | .ok n =>
          match StateDict.write_zarr_children rest with
          | .error e => .error e
          | .ok cs => .ok (.cons k n cs)
end

/-- Model of `ObjectState._read_zarr_data` (state.py:241) with the default
whole-array index: a 0-d element yields `element[...].item()` — the stored
object for an object-codec array, the scalar for a 0-d numeric array — and a
non-0-d numeric element yields the array itself; a group has no `shape`
attribute. -/
def ObjectState.read_zarr_data : ZarrNode → Except PyErr PyObj
  | .zarray _ (.objData o) => .ok o
  | .zarray _ (.ndData a) =>
      if a.shape = [] then
        match a.entries with
        | [x] => .ok (.int x)
        | _ => .error .indexError
      else .ok (.nd a)
  | .zgroup _ _ => .error .attributeError

/-- Model of `ArrayState._read_zarr_data` (state.py:312): `element[...]` of a
numeric array node.  Indexing a group raises; an object-codec node would
yield a 0-d object array, which the numeric-only `NdArr` payload of
`ArrayState` cannot represent — that combination only arises when the stored
class tag mislabels the node, and is modelled as an error. -/
def ArrayState.read_zarr_data : ZarrNode → Except PyErr NdArr
  | .zarray _ (.ndData a) => .ok a
  | .zarray _ (.objData _) => .error .typeError
  | .zgroup _ _ => .error .typeError

/-- The loop of `ArrayCollectionState._read_zarr_data` (state.py:558):
`zarr_element[label][...]` for each stored label.  A missing child raises
`KeyError`; a child that is not a numeric array cannot be an entry of the
collection's array tuple. -/
def readCollectionArrays (cs : ZChildren) : List String → Except PyErr (List NdArr)
  | [] => .ok []
  | l :: ls =>
      match cs.find l with
      | some (.zarray _ (.ndData a)) =>
          match readCollectionArrays cs ls with
          | .error e => .error e
          | .ok rest => .ok (a :: rest)
      | some _ => .error .typeError
      | Option.none => .error (.keyError l)

/-- Lookup among the pre-read children results. -/
def findChildResult (pre : List (String × Except PyErr (List Warn × State)))
    (k : String) : Option (Except PyErr (List Warn × State)) :=
  match pre with
  | [] => Option.none
  | p :: rest => if p.1 = k then some p.2 else findChildResult rest k

/-- The dict comprehension of `DictState._read_zarr_data` (state.py:669):
`StateBase._from_zarr(zarr_element[label])` for each stored key, in the order
of the `__keys__` attribute.  `pre` holds each child's read result; a key
without a child raises `KeyError`. -/
def assembleDict (pre : List (String × Except PyErr (List Warn × State))) :
    List String → Except PyErr (List Warn × StateDict)
  | [] => .ok ([], .nil)
  | k :: ks =>
      match findChildResult pre k with
      | Option.none => .error (.keyError k)
      | some (.error e) => .error e
      | some (.ok (w, s)) =>
          match assembleDict pre ks with
          | .error e => .error e
          | .ok (ws, rest) => .ok (w ++ ws, .cons k s rest)

/-- The stored key list accepted when iterating an attribute value. -/
def keyListOfAttr : AttrVal → Option (List String)
  | .strList l => some l
  | .strTuple l => some l
  | _ => Option.none

mutual
/-- Model of `StateBase._from_zarr` (state.py:172): read the element's
attribute dictionary, resolve `attributes["__class__"]` in the registry
(`KeyError` on a missing tag or an unregistered name), read the
variant-specific data, and hand both to the variant's `from_state`.  The
warning list collects the `warnings.warn` calls made along the way. -/
def readZarr (n : ZarrNode) : Except PyErr (List Warn × State) :=
  match (ZarrNode.attrs n).lookup "__class__" with
  | Option.none => .error (.keyError "__class__")
  | some (.str c) =>
      if c = "ObjectState" then
        match ObjectState.read_zarr_data n with
        | .error e => .error e
        | .ok o => ObjectState.from_state (ZarrNode.attrs n) (some o)
      else if c = "ArrayState" then
        match ArrayState.read_zarr_data n with
        | .error e => .error e
        | .ok a => ArrayState.from_state (ZarrNode.attrs n) (some a)
      else if c = "ArrayCollectionState" then
        match n with
        | .zarray _ _ => .error .typeError
        | .zgroup attrs cs =>
            match attrs.lookup "labels" with
            | Option.none => .error (.keyError "labels")
            | some lv =>
                match keyListOfAttr lv with
                | Option.none => .error .typeError
                | some ls =>
                    match readCollectionArrays cs ls with
                    | .error e => .error e
                    | .ok ds =>
                        if ds.length == ls.length && nodupKeys ls then
                          (ArrayCollectionState.from_state attrs (some ds)).1
                        else .error .assertionError
      else if c = "DictState" then
        match n with
        | .zarray _ _ => .error .typeError
        | .zgroup attrs cs =>
            match attrs.lookup "__keys__" with
            | Option.none => .error (.keyError "__keys__")
            | some kv =>
                match keyListOfAttr kv with
                | Option.none => .error .typeError
                | some ks =>
                    match assembleDict (readChildren cs) ks with
                    | .error e => .error e
                    | .ok (ws, d) =>
                        match DictState.from_state attrs (some (.dict d)) with
                        | .error e => .error e
                        | .ok (ws2, s) => .ok (ws ++ ws2, s)
      else .error (.keyError c)
  | some _ => .error (.keyError "__class__")
/-- Pre-computed read results of all children of a group.  A child's result is
only consulted (and its error only raised) when `assembleDict` looks the child
up, matching Python's by-need reads. -/
def readChildren : ZChildren → List (String × Except PyErr (List Warn × State))
  | .nil => []
  | .cons k n rest => (k, readZarr n) :: readChildren rest
end

/-- A change applied to the stored `__version__` attribute of a written
element before reading it back, to model loading data written under another
format version.  `keep` leaves the element untouched. -/
inductive VersionTamper where
  | keep
  | set (v : Int)
  | remove
deriving DecidableEq, Repr

/-- Applying a version change to a stored element (top level only). -/
def ZarrNode.tamperVersion (n : ZarrNode) (tv : VersionTamper) : ZarrNode :=
  match tv with
  | .keep => n
  | .set v => n.withAttrs ((ZarrNode.attrs n).set "__version__" (.int v))
  | .remove => n.withAttrs ((ZarrNode.attrs n).erase "__version__")

/-- The recorded format version after a change (`attributes.get("__version__", 0)`
reads 0 when the attribute is absent; an untouched write stores 1). -/
def VersionTamper.recordedVersion : VersionTamper → Int
  | .keep => 1
  | .set v => v
  | .remove => 0

/-- Whether a variant loads through the inherited `StateBase.from_state`
(which performs the format-version check): `ObjectState` and `ArrayState` do;
`ArrayCollectionState` and `DictState` override `from_state` without it. -/
def State.usesBaseFromState : State → Bool
  | .objectState _ => true
  | .arrayState _ => true
  | _ => false

/-- The warnings emitted when reading back a written state whose stored
version attribute was changed as `tv`. -/
def warnsFor (s : State) (tv : VersionTamper) : List Warn :=
  if s.usesBaseFromState && !(tv.recordedVersion == 1) then [.versionMismatch]
  else []

/-!
The trajectory layer (`storage/trajectory.py`).  The storage collaborator
used there (`StorageGroup` with `create_dynamic_array`,
`extend_dynamic_array`, `read_array`, `write_attrs`) lives in repository
modules that are not part of the sources at hand, so it is modelled from the
specification, section 6 (the storage-backend contract) and section 7 (schema
errors — wrong data shape — fail fast).
-/

/-- One stored slot of a dynamic array: a numeric item, or an opaque object
boxed in a 0-d object array slot. -/
inductive StoredItem where
  | numeric (a : NdArr)
  | boxed (o : PyObj)
deriving DecidableEq, Repr

/-- Modelled from the spec: a dynamic (appendable) array of the storage
backend, as created by `create_dynamic_array(name, shape, dtype)` — a
zero-length array growable along axis 0 with fixed per-item shape and a
numeric or object dtype (spec section 6). -/
structure DynArr where
  itemShape : List Nat
  isObject : Bool
  items : List StoredItem
deriving Repr

/-- A value passed to `extend_dynamic_array`: either a raw value, or the 0-d
object-array box that `TrajectoryWriter.append` wraps around the value on the
`"object"` path (trajectory.py:135). -/
inductive ExtendVal where
  | raw (o : PyObj)
  | box (o : PyObj)
deriving Repr

/-- Modelled from the spec: `extend_dynamic_array(name, value)` appends one
item along axis 0 (spec section 6); a value whose shape or dtype does not
match the created dynamic array is a schema error that fails fast (spec
sections 4.2 and 7). An object-dtype slot accepts any single value. -/
def DynArr.extendDynamicArray (d : DynArr) (v : ExtendVal) : Except PyErr DynArr :=
  if d.isObject then
    match v with
    | .box o => .ok ⟨d.itemShape, d.isObject, d.items ++ [.boxed o]⟩
    | .raw o => .ok ⟨d.itemShape, d.isObject, d.items ++ [.boxed o]⟩
  else
    match v with
    | .raw (.nd a) =>
        if a.shape = d.itemShape then
          .ok ⟨d.itemShape, d.isObject, d.items ++ [.numeric a]⟩
        else .error .valueError
    | _ => .error .valueError

/-- The storage group a trajectory writes into: its attribute map, and the
`"data"` and `"time"` dynamic arrays once created (the `"time"` array holds
scalar floats, kept directly as rationals). -/
structure TrajGroup where
  attrs : AttrMap
  dataArr : Option DynArr
  timeArr : Option (List ℚ)
deriving Repr

/-- The in-memory `TrajectoryWriter` (trajectory.py:27): the storage group it
owns plus the `_item_type` instance attribute, unset until the first append
fixes it (or an existing trajectory is opened). -/
structure TrajectoryWriter where
  traj : TrajGroup
  item_type : Option String
deriving Repr

/-- A writer freshly constructed over empty storage. -/
def freshTrajectoryWriter : TrajectoryWriter :=
  ⟨⟨[], Option.none, Option.none⟩, Option.none⟩

/-- Model of `TrajectoryWriter.append` (trajectory.py:103).  First call
(`"data" not in self._trajectory`): inspect the value (`"array"` for a numpy
array, `"object"` otherwise), create the `"data"` and `"time"` dynamic
arrays, record `item_type` once as a group attribute, and default the time to
0.0.  Later calls: default the time to the last stored time plus 1.0, read
back from storage.  Then extend `"data"` according to the fixed item type
(objects are boxed into a 0-d object array first) and extend `"time"`. -/
def TrajectoryWriter.append (w : TrajectoryWriter) (data : PyObj)
    (time : Option ℚ) : Except PyErr TrajectoryWriter :=
  let init :=
    match w.traj.dataArr with
    | Option.none =>
        let dyn : DynArr :=
          match data with
          | .nd a => ⟨a.shape, false, []⟩
          | _ => ⟨[], true, []⟩
        let it : String := if data.isNd then "array" else "object"
        Except.ok
          (TrajGroup.mk (w.traj.attrs.set "item_type" (.str it)) (some dyn)
            (some (w.traj.timeArr.getD [])), some it, time.getD 0)
    | some _ =>
        match time with
        | some t => Except.ok (w.traj, w.item_type, t)
        | Option.none =>
            match w.traj.timeArr with
            | Option.none => Except.error (PyErr.keyError "time")
            | some [] => Except.error PyErr.indexError
            | some ts => Except.ok (w.traj, w.item_type, ts.getLast! + 1)
  match init with
  | .error e => .error e
  | .ok (g, it, t) =>
      match g.dataArr with
      | Option.none => .error (.keyError "data")
      | some dyn =>
          let extended :=
            if it = some "array" then dyn.extendDynamicArray (.raw data)
            else if it = some "object" then dyn.extendDynamicArray (.box data)
            else .error .notImplementedError
          match extended with
          | .error e => .error e
          | .ok dyn2 =>
              match g.timeArr with
              | Option.none => .error (.keyError "time")
              | some ts =>
                  .ok ⟨⟨g.attrs, some dyn2, some (ts ++ [t])⟩, it⟩

/-- The `times` list is non-decreasing: every adjacent pair is ordered. -/
def nonDecreasingTimes : List ℚ → Bool
  | a :: b :: rest => decide (a ≤ b) && nonDecreasingTimes (b :: rest)
  | _ => true

/-- Model of `np.any(np.diff(self.times) < 0)` (trajectory.py:182): some
adjacent pair strictly decreases. -/
def anyDiffNeg : List ℚ → Bool
  | a :: b :: rest => decide (b < a) || anyDiffNeg (b :: rest)
  | _ => false

/-- The `Trajectory` reader (trajectory.py:152): holds the item-type
attribute value, the eagerly loaded `times` array, the attribute map, and the
underlying group for later data reads. -/
structure Trajectory where
  item_type : AttrVal
  times : List ℚ
  attrs : AttrMap
  group : TrajGroup
deriving Repr

/-- Model of `Trajectory.__init__` (trajectory.py:164): read the `item_type`
attribute (`KeyError` if absent), eagerly load the full `"time"` array and
the attribute map, then fail with `ValueError` when the loaded times are not
monotonously increasing. -/
def Trajectory.init (g : TrajGroup) : Except PyErr Trajectory :=
  match g.attrs.lookup "item_type" with
  | Option.none => .error (.keyError "item_type")
  | some it =>
      match g.timeArr with
      | Option.none => .error (.keyError "time")
      | some ts =>
          if anyDiffNeg ts then .error .valueError
          else .ok ⟨it, ts, g.attrs, g⟩

/-- Model of `Trajectory._get_item` (trajectory.py:192): a negative index is
shifted by the length, the shifted index must lie in `[0, len)` or an
`IndexError` is raised, then `read_array("data", index)` fetches the slot and
the fixed item type decides between returning the array and unboxing the
object (`res.item()`); any other recorded item type raises
`NotImplementedError`. -/
def Trajectory.get_item (r : Trajectory) (t_index : Int) : Except PyErr PyObj :=
  let n : Int := r.times.length
  let i := if t_index < 0 then t_index + n else t_index
  if 0 ≤ i ∧ i < n then
    match r.group.dataArr with
    | Option.none => .error (.keyError "data")
    | some d =>
        match d.items.get? i.toNat with
        | Option.none => .error .indexError
        | some item =>
            if r.item_type = .str "array" then
              match item with
              | .numeric a => .ok (.nd a)
              | .boxed _ => .error .typeError
            else if r.item_type = .str "object" then
              match item with
              | .boxed o => .ok o
              | .numeric a =>
                  if a.shape = [] then
                    match a.entries with
                    | [x] => .ok (.int x)
                    | _ => .error .indexError
                  else .error .valueError
            else .error .notImplementedError
  else .error .indexError

/-- A reader whose stored data is consistent: the `"data"` array exists, has
one slot per time point, and its slots match the recorded item type. -/
def Trajectory.wellFormed (r : Trajectory) : Bool :=
  match r.group.dataArr with
  | Option.none => false
  | some d =>
      d.items.length == r.times.length &&
      ((r.item_type == .str "array" &&
          d.items.all fun it => match it with | .numeric _ => true | _ => false) ||
       (r.item_type == .str "object" &&
          d.items.all fun it => match it with | .boxed _ => true | _ => false))

/-- Every entry of `d` is found unchanged by lookup in `e`. -/
def StateDict.entriesIn : StateDict → StateDict → Prop
  | .nil, _ => True
  | .cons k v rest, e => e.lookup k = some v ∧ rest.entriesIn e

/-- A well-formed object trajectory of length 5, for concrete indexing. -/
def exampleTrajectory5 : Trajectory :=
  Trajectory.mk (.str "object") [0, 1, 2, 3, 4] [("item_type", .str "object")]
    ⟨[("item_type", .str "object")],
     some ⟨[], true,
       [.boxed (.int 10), .boxed (.int 11), .boxed (.int 12), .boxed (.int 13),
        .boxed (.int 14)]⟩,
     some [0, 1, 2, 3, 4]⟩

theorem AttrMap.dictEq_refl (a : AttrMap) : a.dictEq a = true := by
  unfold AttrMap.dictEq
  simp [List.all_eq_true]

@[simp]
theorem AttrMap.lookup_nil (k : String) : AttrMap.lookup [] k = Option.none := rfl

@[simp]
theorem AttrMap.lookup_cons (p : String × AttrVal) (rest : AttrMap) (k : String) :
    AttrMap.lookup (p :: rest) k = if p.1 = k then some p.2 else rest.lookup k := rfl

@[simp]
theorem AttrMap.erase_nil (k : String) : AttrMap.erase [] k = [] := rfl

@[simp]
theorem AttrMap.erase_cons (p : String × AttrVal) (rest : AttrMap) (k : String) :
    AttrMap.erase (p :: rest) k =
      if p.1 = k then rest.erase k else p :: rest.erase k := rfl

theorem AttrMap.erase_of_lookup_none (m : AttrMap) (k : String)
    (h : m.lookup k = Option.none) : m.erase k = m := by
  induction m with
  | nil => rfl
  | cons p rest ih =>
    simp only [AttrMap.lookup_cons] at h
    by_cases hk : p.1 = k
    · simp [hk] at h
    · simp only [AttrMap.erase_cons, if_neg hk]
      rw [ih (by simpa [hk] using h)]

theorem AttrMap.lookup_erase_ne (m : AttrMap) (k j : String) (h : j ≠ k) :
    (m.erase k).lookup j = m.lookup j := by
  induction m with
  | nil => rfl
  | cons p rest ih =>
    by_cases hk : p.1 = k
    · have hj : ¬ p.1 = j := by rw [hk]; exact fun hh => h hh.symm
      simp only [AttrMap.erase_cons, if_pos hk, AttrMap.lookup_cons, if_neg hj]
      exact ih
    · simp only [AttrMap.erase_cons, if_neg hk, AttrMap.lookup_cons]
      by_cases hj : p.1 = j
      · simp [hj]
      · simp only [if_neg hj]
        exact ih

theorem AttrMap.lookup_erase_self (m : AttrMap) (k : String) :
    (m.erase k).lookup k = Option.none := by
  induction m with
  | nil => rfl
  | cons p rest ih =>
    by_cases hk : p.1 = k
    · simp only [AttrMap.erase_cons, if_pos hk]
      exact ih
    · simp only [AttrMap.erase_cons, if_neg hk, AttrMap.lookup_cons, if_neg hk]
      exact ih

mutual
theorem specStateEq_eq_statesEqual : ∀ s t, specStateEq s t = statesEqual s t
  | .objectState _, .objectState _ => rfl
  | .arrayState _, .arrayState _ => rfl
  | .arrayCollectionState _ _, .arrayCollectionState _ _ => rfl
  | .dictState d, .dictState e => by
      simp only [specStateEq, statesEqual, specDictValuesEq_eq_dictValuesEqual d e]
  | .objectState _, .arrayState _ => rfl
  | .objectState _, .arrayCollectionState _ _ => rfl
  | .objectState _, .dictState _ => rfl
  | .arrayState _, .objectState _ => rfl
  | .arrayState _, .arrayCollectionState _ _ => rfl
  | .arrayState _, .dictState _ => rfl
  | .arrayCollectionState _ _, .objectState _ => rfl
  | .arrayCollectionState _ _, .arrayState _ => rfl
  | .arrayCollectionState _ _, .dictState _ => rfl
  | .dictState _, .objectState _ => rfl
  | .dictState _, .arrayState _ => rfl
  | .dictState _, .arrayCollectionState _ _ => rfl
theorem specDictValuesEq_eq_dictValuesEqual :
    ∀ d e, specDictValuesEq d e = dictValuesEqual d e
  | .nil, _ => rfl
  | .cons k v rest, e => by
      simp only [specDictValuesEq, dictValuesEqual,
        specDictValuesEq_eq_dictValuesEqual rest e]
      cases e.lookup k with
      | none => rfl
      | some w => simp only [specStateEq_eq_statesEqual v w]
end

theorem anyDiffNeg_eq_not_nonDecreasing (ts : List ℚ) :
    anyDiffNeg ts = !nonDecreasingTimes ts := by
  induction ts with
  | nil => rfl
  | cons a rest ih =>
    cases rest with
    | nil => rfl
    | cons b rest2 =>
      simp only [anyDiffNeg, nonDecreasingTimes, ih, Bool.not_and]
      by_cases h : b < a
      · simp [h, not_le.mpr h]
      · simp [h, not_lt.mp h]

/-!
Reflexivity of the specification equality on constructible states, and
helper lemmas about association-list reads used by the round-trip proof.
-/

theorem npArrayEqual_refl (a : NdArr) : npArrayEqual a a = true := by
  simp [npArrayEqual]

theorem pyObjEquals_refl (o : PyObj) : pyObjEquals o o = true := by
  cases o <;> simp [pyObjEquals, npArrayEqual_refl]

theorem optArrEqual_refl (a : Option NdArr) : optArrEqual a a = true := by
  cases a <;> simp [optArrEqual, npArrayEqual_refl]

theorem arrListEqual_refl (xs : List NdArr) : arrListEqual xs xs = true := by
  unfold arrListEqual
  simp only [beq_self_eq_true, Bool.true_and]
  induction xs with
  | nil => rfl
  | cons x rest ih => simpa [npArrayEqual_refl] using ih

theorem StateDict.entriesIn_cons : ∀ (d : StateDict) (k : String) (n : State)
    (e : StateDict), listContains d.keys k = false → d.entriesIn e →
    d.entriesIn (StateDict.cons k n e)
  | .nil, _, _, _ => fun _ _ => trivial
  | .cons k2 v2 rest, k, n, e => fun hk h => by
      obtain ⟨h1, h2⟩ := h
      simp only [StateDict.keys, listContains, Bool.or_eq_false_iff,
        beq_eq_false_iff_ne, ne_eq] at hk
      refine ⟨?_, StateDict.entriesIn_cons rest k n e hk.2 h2⟩
      simp only [StateDict.lookup]
      rw [if_neg (fun hh => hk.1 hh.symm)]
      exact h1

theorem StateDict.entriesIn_self : ∀ d : StateDict, nodupKeys d.keys = true →
    d.entriesIn d
  | .nil => fun _ => trivial
  | .cons k v rest => fun h => by
      simp only [StateDict.keys, nodupKeys, Bool.and_eq_true,
        Bool.not_eq_true'] at h
      refine ⟨by simp [StateDict.lookup], ?_⟩
      apply StateDict.entriesIn_cons rest k v rest h.1
      exact StateDict.entriesIn_self rest h.2

theorem keysSubset_of_entriesIn : ∀ d e : StateDict, d.entriesIn e →
    keysSubset d.keys e = true
  | .nil, _ => fun _ => rfl
  | .cons k v rest, e => fun h => by
      obtain ⟨h1, h2⟩ := h
      simp only [keysSubset, StateDict.keys, List.all_cons, Bool.and_eq_true]
      exact ⟨by simp [h1], by
        simpa [keysSubset] using keysSubset_of_entriesIn rest e h2⟩

mutual
theorem specStateEq_refl : ∀ s : State, s.valid = true → specStateEq s s = true
  | .objectState o => fun _ => by
      simp [specStateEq, AttrMap.dictEq_refl, pyObjEquals_refl]
  | .arrayState a => fun _ => by
      simp [specStateEq, AttrMap.dictEq_refl, optArrEqual_refl]
  | .arrayCollectionState ds ls => fun _ => by
      simp [specStateEq, AttrMap.dictEq_refl, arrListEqual_refl]
  | .dictState d => fun h => by
      simp only [State.valid, Bool.and_eq_true] at h
      have hin := StateDict.entriesIn_self d h.1
      simp only [specStateEq, AttrMap.dictEq_refl, Bool.true_and, Bool.and_eq_true]
      exact ⟨⟨keysSubset_of_entriesIn d d hin, keysSubset_of_entriesIn d d hin⟩,
        specDictValuesEq_of_entriesIn d d h.2 hin⟩
theorem specDictValuesEq_of_entriesIn :
    ∀ d e : StateDict, d.valid = true → d.entriesIn e → specDictValuesEq d e = true
  | .nil, _ => fun _ _ => rfl
  | .cons k v rest, e => fun h hin => by
      simp only [StateDict.valid, Bool.and_eq_true] at h
      obtain ⟨h1, h2⟩ := hin
      simp only [specDictValuesEq, h1, Bool.and_eq_true]
      exact ⟨specStateEq_refl v h.1, specDictValuesEq_of_entriesIn rest e h.2 h2⟩
end

theorem readCollectionArrays_cons_notmem :
    ∀ (ls : List String) (k : String) (n : ZarrNode) (cs : ZChildren),
    listContains ls k = false →
    readCollectionArrays (ZChildren.cons k n cs) ls = readCollectionArrays cs ls
  | [], _, _, _ => fun _ => rfl
  | l :: ls2, k, n, cs => fun h => by
      simp only [listContains, Bool.or_eq_false_iff, beq_eq_false_iff_ne,
        ne_eq] at h
      have hfind : (ZChildren.cons k n cs).find l = cs.find l := by
        simp only [ZChildren.find]
        exact if_neg (fun hh => h.1 hh.symm)
      have ih := readCollectionArrays_cons_notmem ls2 k n cs h.2
      simp only [readCollectionArrays, hfind, ih]

theorem readCollectionArrays_arrayChildren :
    ∀ (ls : List String) (ds : List NdArr), ds.length = ls.length →
    nodupKeys ls = true →
    readCollectionArrays (arrayChildren ls ds) ls = .ok ds
  | [], [] => fun _ _ => rfl
  | [], _ :: _ => fun h _ => by simp at h
  | _ :: _, [] => fun h _ => by simp at h
  | l :: ls2, d :: ds2 => fun h hn => by
      have hlen : ds2.length = ls2.length := by simpa using h
      simp only [nodupKeys, Bool.and_eq_true, Bool.not_eq_true'] at hn
      simp only [arrayChildren, readCollectionArrays, ZChildren.find, if_pos rfl]
      rw [readCollectionArrays_cons_notmem ls2 l _ _ hn.1,
        readCollectionArrays_arrayChildren ls2 ds2 hlen hn.2]
      simp

theorem findChildResult_cons (p : String × Except PyErr (List Warn × State))
    (pre : List (String × Except PyErr (List Warn × State))) (k : String) :
    findChildResult (p :: pre) k =
      if p.1 = k then some p.2 else findChildResult pre k := rfl

theorem assembleDict_cons_notmem :
    ∀ (ks : List String) (k : String) (r : Except PyErr (List Warn × State))
      (pre : List (String × Except PyErr (List Warn × State))),
    listContains ks k = false →
    assembleDict ((k, r) :: pre) ks = assembleDict pre ks
  | [], _, _, _ => fun _ => rfl
  | j :: ks2, k, r, pre => fun h => by
      simp only [listContains, Bool.or_eq_false_iff, beq_eq_false_iff_ne,
        ne_eq] at h
      have hfind : findChildResult ((k, r) :: pre) j = findChildResult pre j := by
        simp only [findChildResult_cons]
        exact if_neg (fun hh => h.1 hh.symm)
      have ih := assembleDict_cons_notmem ks2 k r pre h.2
      simp only [assembleDict, hfind, ih]

mutual
/-- Writing a valid state and reading the element back — after any change to
its stored `__version__` attribute — reconstructs exactly the written state,
with the version-mismatch warning exactly when the loading variant goes
through the inherited `StateBase.from_state` and the recorded version is not
the current one. -/
theorem write_read_tampered : ∀ (s : State), s.valid = true →
    ∀ tv : VersionTamper, ∃ n, State.write_zarr s = .ok n ∧
      readZarr (n.tamperVersion tv) = .ok (warnsFor s tv, s)
  | .objectState o => fun _ tv => by
      refine ⟨_, rfl, ?_⟩
      cases tv with
      | keep => rfl
      | remove => rfl
      | set v =>
          by_cases hv : v = 1
          · subst hv; rfl
          · simp [ZarrNode.tamperVersion, ZarrNode.withAttrs, ZarrNode.attrs,
              State.zarrStoredAttrs, State.attributesStore, AttrMap.jsonize,
              AttrVal.jsonize, AttrMap.set, readZarr, ObjectState.read_zarr_data,
              ObjectState.from_state, StateBase.from_state_checks, AttrMap.size,
              warnsFor, VersionTamper.recordedVersion, State.usesBaseFromState, hv]
  | .arrayState Option.none => fun h => by simp [State.valid] at h
  | .arrayState (some a) => fun _ tv => by
      refine ⟨_, rfl, ?_⟩
      cases tv with
      | keep => rfl
      | remove => rfl
      | set v =>
          by_cases hv : v = 1
          · subst hv; rfl
          · simp [ZarrNode.tamperVersion, ZarrNode.withAttrs, ZarrNode.attrs,
              State.zarrStoredAttrs, State.attributesStore, AttrMap.jsonize,
              AttrVal.jsonize, AttrMap.set, readZarr, ArrayState.read_zarr_data,
              ArrayState.from_state, StateBase.from_state_checks, AttrMap.size,
              warnsFor, VersionTamper.recordedVersion, State.usesBaseFromState, hv]
  | .arrayCollectionState ds ls => fun h tv => by
      simp only [State.valid, Bool.and_eq_true, beq_iff_eq] at h
      have hread := readCollectionArrays_arrayChildren ls ds h.1 h.2
      refine ⟨_, rfl, ?_⟩
      cases tv <;>
        simp [ZarrNode.tamperVersion, ZarrNode.withAttrs, ZarrNode.attrs, readZarr,
          State.zarrStoredAttrs, State.attributesStore, AttrMap.jsonize,
          AttrVal.jsonize, AttrMap.set, AttrMap.erase, keyListOfAttr, hread, h.1,
          h.2, ArrayCollectionState.from_state, labelsToList, warnsFor,
          State.usesBaseFromState]
  | .dictState d => fun h tv => by
      simp only [State.valid, Bool.and_eq_true] at h
      obtain ⟨cs, hw, hr⟩ := write_read_children d h.2 h.1
      refine ⟨ZarrNode.zgroup (State.dictState d).zarrStoredAttrs cs, ?_, ?_⟩
      · simp only [State.write_zarr, hw]
      · cases tv <;>
          simp [ZarrNode.tamperVersion, ZarrNode.withAttrs, ZarrNode.attrs, readZarr,
            State.zarrStoredAttrs, State.attributesStore, AttrMap.jsonize,
            AttrVal.jsonize, AttrMap.set, AttrMap.erase, keyListOfAttr, hr,
            DictState.from_state, warnsFor, State.usesBaseFromState]
/-- Writing the children of a valid dict payload and reading them back in
key order reconstructs the payload with no warnings. -/
theorem write_read_children : ∀ (d : StateDict), d.valid = true →
    nodupKeys d.keys = true → ∃ cs, StateDict.write_zarr_children d = .ok cs ∧
      assembleDict (readChildren cs) d.keys = .ok ([], d)
  | .nil => fun _ _ => ⟨.nil, rfl, rfl⟩
  | .cons k v rest => fun hv hn => by
      simp only [StateDict.valid, Bool.and_eq_true] at hv
      simp only [StateDict.keys, nodupKeys, Bool.and_eq_true,
        Bool.not_eq_true'] at hn
      obtain ⟨n, hwv, hrv⟩ := write_read_tampered v hv.1 .keep
      obtain ⟨cs, hwc, hrc⟩ := write_read_children rest hv.2 hn.2
      have hrv2 : readZarr n = .ok ([], v) := by
        simpa [ZarrNode.tamperVersion, warnsFor,
          VersionTamper.recordedVersion] using hrv
      refine ⟨.cons k n cs, ?_, ?_⟩
      · simp only [StateDict.write_zarr_children, hwv, hwc]
      · simp only [StateDict.keys, readChildren]
        rw [show assembleDict ((k, readZarr n) :: readChildren cs)
              (k :: rest.keys) =
            match findChildResult ((k, readZarr n) :: readChildren cs) k with
            | Option.none => .error (.keyError k)
            | some (.error e) => .error e
            | some (.ok (w, s)) =>
                match assembleDict ((k, readZarr n) :: readChildren cs) rest.keys with
                | .error e => .error e
                | .ok (ws, r) => .ok (w ++ ws, .cons k s r)
            from rfl]
        rw [assembleDict_cons_notmem rest.keys k (readZarr n) (readChildren cs) hn.1]
        simp [findChildResult_cons, hrv2, hrc]
end

/-!
Helper lemmas about `TrajectoryWriter.append` and `Trajectory`.
-/

/-- A successful append to a writer whose storage already holds trajectory
data keeps the writer's item type and the group attributes unchanged. -/
theorem append_existing_preserves (w : TrajectoryWriter) (dyn : DynArr)
    (data : PyObj) (t : Option ℚ) (w2 : TrajectoryWriter)
    (hdata : w.traj.dataArr = some dyn)
    (happ : w.append data t = .ok w2) :
    w2.item_type = w.item_type ∧ w2.traj.attrs = w.traj.attrs := by
  cases t with
  | some tau =>
    simp only [TrajectoryWriter.append, hdata] at happ
    cases hts : w.traj.timeArr with
    | none =>
      rw [hts] at happ
      split at happ <;> exact absurd happ (by simp)
    | some ts =>
      rw [hts] at happ
      split at happ
      · exact absurd happ (by simp)
      · injection happ with h
        subst h
        exact ⟨rfl, rfl⟩
  | none =>
    cases hts : w.traj.timeArr with
    | none =>
      simp only [TrajectoryWriter.append, hdata, hts] at happ
      exact absurd happ (by simp)
    | some ts =>
      cases ts with
      | nil =>
        simp only [TrajectoryWriter.append, hdata, hts] at happ
        exact absurd happ (by simp)
      | cons a ts2 =>
        simp only [TrajectoryWriter.append, hdata, hts] at happ
        split at happ
        · exact absurd happ (by simp)
        · injection happ with h
          subst h
          exact ⟨rfl, rfl⟩

/-- A successful append with no explicit time to a writer whose storage
already holds data appends `last stored time + 1` to the time array. -/
theorem append_existing_time (w : TrajectoryWriter) (dyn : DynArr)
    (ts : List ℚ) (v : PyObj) (w2 : TrajectoryWriter)
    (hdata : w.traj.dataArr = some dyn) (htime : w.traj.timeArr = some ts)
    (hne : ts ≠ []) (happ : w.append v Option.none = .ok w2) :
    w2.traj.timeArr = some (ts ++ [ts.getLast! + 1]) := by
  cases ts with
  | nil => exact absurd rfl hne
  | cons a ts2 =>
    simp only [TrajectoryWriter.append, hdata, htime] at happ
    split at happ
    · exact absurd happ (by simp)
    · injection happ with h
      subst h
      rfl

/-- Appending a non-array value to a writer whose trajectory was fixed to the
`"array"` item shape fails: `extend_dynamic_array` rejects the value for the
numeric dynamic array (and when the omitted time must be read first, a missing
or empty time array already fails). -/
theorem append_array_type_mismatch (w : TrajectoryWriter) (sh : List Nat)
    (items : List StoredItem) (data : PyObj) (t : Option ℚ)
    (hdata : w.traj.dataArr = some ⟨sh, false, items⟩)
    (hit : w.item_type = some "array") (hnd : data.isNd = false) :
    ∃ e, w.append data t = .error e := by
  have tail : ∀ dv : PyObj, dv.isNd = false →
      (DynArr.mk sh false items).extendDynamicArray (.raw dv) =
        .error .valueError := by
    intro dv hdv
    cases dv with
    | nd a => simp [PyObj.isNd] at hdv
    | none => simp [DynArr.extendDynamicArray]
    | bool b => simp [DynArr.extendDynamicArray]
    | int n => simp [DynArr.extendDynamicArray]
    | float q => simp [DynArr.extendDynamicArray]
    | str s => simp [DynArr.extendDynamicArray]
  cases t with
  | some tau =>
      exact ⟨.valueError, by
        simp [TrajectoryWriter.append, hdata, hit, tail data hnd]⟩
  | none =>
      cases hts : w.traj.timeArr with
      | none =>
          exact ⟨.keyError "time", by
            simp [TrajectoryWriter.append, hdata, hit, hts]⟩
      | some ts =>
          cases ts with
          | nil =>
              exact ⟨.indexError, by
                simp [TrajectoryWriter.append, hdata, hit, hts]⟩
          | cons a ts2 =>
              exact ⟨.valueError, by
                simp [TrajectoryWriter.append, hdata, hit, hts, tail data hnd]⟩

/-- C5: constructing a `Trajectory` reader eagerly loads the full stored
times array and fails construction with an ordering error whenever the stored
times are not non-decreasing; a constructed reader always carries
non-decreasing times, so no trajectory with out-of-order times is ever
returned. -/
theorem claim5_monotonic_time :
    (∀ (g : TrajGroup) (r : Trajectory), Trajectory.init g = .ok r →
        nonDecreasingTimes r.times = true ∧ r.times = g.timeArr.getD []) ∧
    (∀ (g : TrajGroup) (it : AttrVal) (ts : List ℚ),
        g.attrs.lookup "item_type" = some it → g.timeArr = some ts →
        nonDecreasingTimes ts = false →
        Trajectory.init g = .error .valueError) := by
  constructor
  · intro g r h
    unfold Trajectory.init at h
    split at h
    · exact absurd h (by simp)
    · split at h
      · exact absurd h (by simp)
      · rename_i ts hts
        split at h
        · exact absurd h (by simp)
        · rename_i hmono
          injection h with h
          subst h
          constructor
          · rw [anyDiffNeg_eq_not_nonDecreasing] at hmono
            simpa using hmono
          · simp [hts]
  · intro g it ts hit hts hmono
    unfold Trajectory.init
    simp only [hit, hts]
    rw [anyDiffNeg_eq_not_nonDecreasing, hmono]
    rfl

/-- C5 witness: times `[0, 1, 0.5]` make construction fail with the ordering
error, while a well-ordered store constructs with its times loaded. -/
theorem claim5_monotonic_time_witness :
    Trajectory.init ⟨[("item_type", .str "array")], Option.none,
        some [0, 1, 1/2]⟩ = .error .valueError ∧
    nonDecreasingTimes
        (Trajectory.mk (.str "array") [0, 1] [("item_type", .str "array")]
          ⟨[("item_type", .str "array")], Option.none, some [0, 1]⟩).times
      = true := by
  constructor
  · exact claim5_monotonic_time.2 _ (.str "array") [0, 1, 1/2] rfl rfl
      (by norm_num [nonDecreasingTimes])
  · exact (claim5_monotonic_time.1
      ⟨[("item_type", .str "array")], Option.none, some [0, 1]⟩ _ (by
        unfold Trajectory.init
        norm_num [AttrMap.lookup, anyDiffNeg])).1

/-- C6: appending twice to a fresh trajectory writer with the time omitted
stores the times `[0.0, 1.0]`; in general, the first append with no time uses
0.0 and every later append with no time uses the last stored time plus 1.0. -/
theorem claim6_auto_time :
    (∀ (v1 v2 : PyObj) (w1 w2 : TrajectoryWriter),
        freshTrajectoryWriter.append v1 Option.none = .ok w1 →
        w1.append v2 Option.none = .ok w2 →
        w1.traj.timeArr = some [0] ∧ w2.traj.timeArr = some [0, 1]) ∧
    (∀ (w : TrajectoryWriter) (dyn : DynArr) (ts : List ℚ) (v : PyObj)
        (w2 : TrajectoryWriter), w.traj.dataArr = some dyn →
        w.traj.timeArr = some ts → ts ≠ [] →
        w.append v Option.none = .ok w2 →
        w2.traj.timeArr = some (ts ++ [ts.getLast! + 1])) := by
  have hfresh : ∀ (v : PyObj) (w1 : TrajectoryWriter),
      freshTrajectoryWriter.append v Option.none = .ok w1 →
      w1.traj.timeArr = some [0] ∧ ∃ dyn, w1.traj.dataArr = some dyn := by
    intro v w1 h
    cases v <;>
      (simp [TrajectoryWriter.append, freshTrajectoryWriter, PyObj.isNd,
         DynArr.extendDynamicArray] at h; subst h; exact ⟨rfl, _, rfl⟩)
  constructor
  · intro v1 v2 w1 w2 h1 h2
    obtain ⟨ht1, dyn, hd1⟩ := hfresh v1 w1 h1
    refine ⟨ht1, ?_⟩
    have := append_existing_time w1 dyn [0] v2 w2 hd1 ht1 (by simp) h2
    simpa [show ([0] : List ℚ).getLast! = 0 from rfl] using this
  · exact fun w dyn ts v w2 h1 h2 h3 h4 =>
      append_existing_time w dyn ts v w2 h1 h2 h3 h4

/-- C6 witness: two concrete appends with no time yield stored times 0.0 and
1.0. -/
theorem claim6_auto_time_witness :
    ∃ w1 w2, freshTrajectoryWriter.append (.int 5) Option.none = .ok w1 ∧
      w1.append (.int 7) Option.none = .ok w2 ∧
      w1.traj.timeArr = some [0] ∧ w2.traj.timeArr = some [0, 1] := by
  refine ⟨_, _, rfl, rfl, ?_⟩
  exact claim6_auto_time.1 (.int 5) (.int 7) _ _ rfl rfl

/-- C7: item lookup on a trajectory of length n accepts every index in
`[0, n)` and every negative index in `[-n, 0)`, a negative index returning the
same item as the index shifted by n; every index outside `[-n, n)` raises
`IndexError`. -/
theorem claim7_indexing :
    (∀ (r : Trajectory) (i : Int), r.wellFormed = true → 0 ≤ i →
        i < (r.times.length : Int) → ∃ v, r.get_item i = .ok v) ∧
    (∀ (r : Trajectory) (i : Int), -(r.times.length : Int) ≤ i → i < 0 →
        r.get_item i = r.get_item (i + (r.times.length : Int))) ∧
    (∀ (r : Trajectory) (i : Int),
        i < -(r.times.length : Int) ∨ (r.times.length : Int) ≤ i →
        r.get_item i = .error .indexError) := by
  refine ⟨?_, ?_, ?_⟩
  · intro r i hwf h0 hn
    unfold Trajectory.wellFormed at hwf
    cases hd : r.group.dataArr with
    | none => rw [hd] at hwf; simp at hwf
    | some d =>
      rw [hd] at hwf
      simp only [Bool.and_eq_true, Bool.or_eq_true, beq_iff_eq] at hwf
      obtain ⟨hlen, htype⟩ := hwf
      have hidx : i.toNat < d.items.length := by
        rw [hlen]; omega
      have hget := List.get?_eq_get hidx
      simp only [Trajectory.get_item]
      rw [if_neg (show ¬ i < 0 by omega), if_pos ⟨h0, hn⟩]
      simp only [hd]
      rw [hget]
      rcases htype with ⟨hT, hall⟩ | ⟨hT, hall⟩
      · have hmem := List.all_eq_true.mp hall _
          (List.get_mem d.items i.toNat hidx)
        cases hitem : d.items.get ⟨i.toNat, hidx⟩ with
        | numeric a => exact ⟨.nd a, by simp [hT]⟩
        | boxed o => rw [hitem] at hmem; exact absurd hmem (by simp)
      · have hmem := List.all_eq_true.mp hall _
          (List.get_mem d.items i.toNat hidx)
        cases hitem : d.items.get ⟨i.toNat, hidx⟩ with
        | numeric a => rw [hitem] at hmem; exact absurd hmem (by simp)
        | boxed o => exact ⟨o, by simp [hT]⟩
  · intro r i h1 h2
    simp only [Trajectory.get_item]
    rw [if_pos h2, if_neg (show ¬ i + (r.times.length : Int) < 0 by omega)]
  · intro r i h
    simp only [Trajectory.get_item]
    rcases h with h | h
    · rw [if_pos (show i < 0 by omega),
        if_neg (show ¬ (0 ≤ i + (r.times.length : Int) ∧
          i + (r.times.length : Int) < (r.times.length : Int)) by omega)]
    · rw [if_neg (show ¬ i < 0 by omega),
        if_neg (show ¬ (0 ≤ i ∧ i < (r.times.length : Int)) by omega)]

/-- C7 witness: on a length-5 trajectory, index 2 is accepted, index -1 reads
the same item as index 4, and indices 5 and -6 raise `IndexError`. -/
theorem claim7_indexing_witness :
    (∃ v, exampleTrajectory5.get_item 2 = .ok v) ∧
    exampleTrajectory5.get_item (-1) = exampleTrajectory5.get_item 4 ∧
    exampleTrajectory5.get_item 5 = .error .indexError ∧
    exampleTrajectory5.get_item (-6) = .error .indexError := by
  refine ⟨?_, ?_, ?_, ?_⟩
  · exact claim7_indexing.1 exampleTrajectory5 2 (by rfl) (by decide) (by decide)
  · exact claim7_indexing.2.1 exampleTrajectory5 (-1) (by decide) (by decide)
  · exact claim7_indexing.2.2 exampleTrajectory5 5 (Or.inr (by decide))
  · exact claim7_indexing.2.2 exampleTrajectory5 (-6) (Or.inl (by decide))

/-- C3: the item-shape decision (`"array"` for a numpy array, `"object"`
otherwise) made by the first append of a `TrajectoryWriter` is recorded once
as the `item_type` attribute; every later append leaves the decision and the
attribute unchanged; and a later append whose value is not an array while the
trajectory is fixed to the `"array"` shape fails with an error instead of
being silently coerced. -/
theorem claim3_item_shape_fixed :
    (∀ (data : PyObj) (t : Option ℚ), ∃ w2,
        freshTrajectoryWriter.append data t = .ok w2 ∧
        w2.item_type = some (if data.isNd then "array" else "object") ∧
        w2.traj.attrs.lookup "item_type" =
          some (.str (if data.isNd then "array" else "object"))) ∧
    (∀ (w : TrajectoryWriter) (dyn : DynArr) (data : PyObj) (t : Option ℚ)
        (w2 : TrajectoryWriter), w.traj.dataArr = some dyn →
        w.append data t = .ok w2 →
        w2.item_type = w.item_type ∧ w2.traj.attrs = w.traj.attrs) ∧
    (∀ (w : TrajectoryWriter) (sh : List Nat) (items : List StoredItem)
        (data : PyObj) (t : Option ℚ),
        w.traj.dataArr = some ⟨sh, false, items⟩ →
        w.item_type = some "array" → data.isNd = false →
        ∃ e, w.append data t = .error e) := by
  refine ⟨?_, ?_, ?_⟩
  · intro data t
    cases data with
    | nd a =>
        refine ⟨⟨⟨[("item_type", .str "array")],
          some ⟨a.shape, false, [.numeric a]⟩, some [t.getD 0]⟩,
          some "array"⟩, ?_, rfl, rfl⟩
        simp [TrajectoryWriter.append, freshTrajectoryWriter, PyObj.isNd,
          DynArr.extendDynamicArray, AttrMap.set]
    | none => exact ⟨_, rfl, rfl, rfl⟩
    | bool b => exact ⟨_, rfl, rfl, rfl⟩
    | int n => exact ⟨_, rfl, rfl, rfl⟩
    | float q => exact ⟨_, rfl, rfl, rfl⟩
    | str s => exact ⟨_, rfl, rfl, rfl⟩
  · exact fun w dyn data t w2 h1 h2 => append_existing_preserves w dyn data t w2 h1 h2
  · exact fun w sh items data t h1 h2 h3 =>
      append_array_type_mismatch w sh items data t h1 h2 h3

/-- C3 witness: a first append of an array records `item_type = "array"`; a
later matching append preserves it; a later append of a string to the
array-shaped trajectory fails. -/
theorem claim3_item_shape_fixed_witness :
    (∃ w2, freshTrajectoryWriter.append (.nd ⟨[2], [1, 2]⟩) Option.none = .ok w2 ∧
        w2.item_type = some "array" ∧
        w2.traj.attrs.lookup "item_type" = some (.str "array")) ∧
    (∃ w2, (TrajectoryWriter.mk
          ⟨[("item_type", .str "array")], some ⟨[2], false, []⟩, some [0]⟩
          (some "array")).append (.nd ⟨[2], [7, 8]⟩) Option.none = .ok w2 ∧
        w2.item_type = some "array") ∧
    (∃ e, (TrajectoryWriter.mk
          ⟨[("item_type", .str "array")], some ⟨[2], false, []⟩, some [0]⟩
          (some "array")).append (.str "oops") Option.none = .error e) := by
  refine ⟨?_, ?_, ?_⟩
  · exact claim3_item_shape_fixed.1 (.nd ⟨[2], [1, 2]⟩) Option.none
  · obtain ⟨hit, -⟩ := claim3_item_shape_fixed.2.1
      (TrajectoryWriter.mk
        ⟨[("item_type", .str "array")], some ⟨[2], false, []⟩, some [0]⟩
        (some "array")) ⟨[2], false, []⟩ (.nd ⟨[2], [7, 8]⟩) Option.none _
      rfl (by rfl)
    exact ⟨_, by rfl, hit⟩
  · exact claim3_item_shape_fixed.2.2 _ [2] [] (.str "oops") Option.none rfl rfl rfl

/-- C1: writing any valid state of any variant to a fresh storage group and
reading it back yields a state equal to the original under the specification
equality (same variant, equal attribute stores — including class tag, format
version, labels and key order — and element-wise equal data); composite
`DictState` values round-trip preserving key order and nested variants. -/
theorem claim1_roundtrip (s : State) (h : s.valid = true) :
    ∃ n s2, State.write_zarr s = .ok n ∧ readZarr n = .ok ([], s2) ∧
      specStateEq s2 s = true := by
  obtain ⟨n, hw, hr⟩ := write_read_tampered s h .keep
  refine ⟨n, s, hw, ?_, specStateEq_refl s h⟩
  simpa [ZarrNode.tamperVersion, warnsFor, VersionTamper.recordedVersion]
    using hr

/-- C1 witness: the dict state with keys `a` (an `ArrayState` of `[1, 2, 3]`)
and `b` (an `ObjectState` of the string `x`) is valid and round-trips. -/
theorem claim1_roundtrip_witness :
    ((State.dictState (.cons "a" (.arrayState (some ⟨[3], [1, 2, 3]⟩))
        (.cons "b" (.objectState (.str "x")) .nil))).valid = true) ∧
    ∃ n s2, State.write_zarr
        (State.dictState (.cons "a" (.arrayState (some ⟨[3], [1, 2, 3]⟩))
          (.cons "b" (.objectState (.str "x")) .nil))) = .ok n ∧
      readZarr n = .ok ([], s2) ∧
      specStateEq s2
        (State.dictState (.cons "a" (.arrayState (some ⟨[3], [1, 2, 3]⟩))
          (.cons "b" (.objectState (.str "x")) .nil))) = true :=
  ⟨rfl, claim1_roundtrip _ rfl⟩

/-- C9: `make_state` returns a state argument unchanged, wraps a numpy array
in an `ArrayState`, and wraps any other value in an `ObjectState`. -/
theorem claim9_make_state :
    (∀ s : State, make_state (.state s) = s) ∧
    (∀ a : NdArr, make_state (.val (.nd a)) = .arrayState (some a)) ∧
    (∀ o : PyObj, o.isNd = false → make_state (.val o) = .objectState o) := by
  refine ⟨fun s => rfl, fun a => rfl, fun o h => ?_⟩
  cases o <;> first
    | rfl
    | simp [PyObj.isNd] at h

/-- C9 witness: a state passes through unchanged, an array is wrapped in an
`ArrayState`, the string `x` is wrapped in an `ObjectState`. -/
theorem claim9_make_state_witness :
    make_state (.state (.objectState .none)) = .objectState .none ∧
    make_state (.val (.nd ⟨[1], [3]⟩)) = .arrayState (some ⟨[1], [3]⟩) ∧
    make_state (.val (.str "x")) = .objectState (.str "x") :=
  ⟨claim9_make_state.1 _, claim9_make_state.2.1 _,
    claim9_make_state.2.2 (.str "x") rfl⟩

/-- C10: every call of the active `ArrayCollectionState.from_state` leaves
the caller-supplied attribute dictionary equal to the original with the
`labels` key removed — the key is absent afterwards and every other key is
unchanged (when `labels` was absent, the `pop` raises before mutating and the
dictionary is untouched, which the erase also describes). -/
theorem claim10_from_state_pops_labels (attrs : AttrMap)
    (data : Option (List NdArr)) :
    (ArrayCollectionState.from_state attrs data).2 = attrs.erase "labels" ∧
    (ArrayCollectionState.from_state attrs data).2.lookup "labels" =
      Option.none ∧
    (∀ k, k ≠ "labels" →
      (ArrayCollectionState.from_state attrs data).2.lookup k =
        attrs.lookup k) := by
  have hsnd : (ArrayCollectionState.from_state attrs data).2 =
      attrs.erase "labels" := by
    unfold ArrayCollectionState.from_state
    cases hl : attrs.lookup "labels" with
    | none =>
        simp only []
        exact (AttrMap.erase_of_lookup_none attrs "labels" hl).symm
    | some lv =>
        cases hll : labelsToList lv with
        | none => simp [hll]
        | some ls =>
            simp only [hll]
            split <;> rfl
  refine ⟨hsnd, ?_, ?_⟩
  · rw [hsnd]
    exact AttrMap.lookup_erase_self attrs "labels"
  · intro k hk
    rw [hsnd]
    exact AttrMap.lookup_erase_ne attrs "labels" k hk

/-- C10 witness: with attributes `{labels: ["a"], other: 1}` the call removes
exactly the `labels` key. -/
theorem claim10_from_state_pops_labels_witness :
    (ArrayCollectionState.from_state
        [("labels", .strList ["a"]), ("other", .int 1)]
        (some [⟨[1], [5]⟩])).2 =
      AttrMap.erase [("labels", .strList ["a"]), ("other", .int 1)] "labels" ∧
    (ArrayCollectionState.from_state
        [("labels", .strList ["a"]), ("other", .int 1)]
        (some [⟨[1], [5]⟩])).2.lookup "other" =
      AttrMap.lookup [("labels", .strList ["a"]), ("other", .int 1)] "other" :=
  ⟨(claim10_from_state_pops_labels _ _).1,
    (claim10_from_state_pops_labels
      [("labels", .strList ["a"]), ("other", .int 1)]
      (some [⟨[1], [5]⟩])).2.2 "other" (by decide)⟩

/-- C2 counterexample: two `ArrayCollectionState`s with the same single array
but different labels compare equal under `==` (the override ignores labels and
variant identity), yet their stored attribute maps differ, so the claimed
equivalence with the specification equality fails. -/
theorem claim2_counterexample :
    stateEqOp (.arrayCollectionState [⟨[1], [5]⟩] ["a"])
        (.arrayCollectionState [⟨[1], [5]⟩] ["b"]) = some true ∧
    specStateEq (.arrayCollectionState [⟨[1], [5]⟩] ["a"])
        (.arrayCollectionState [⟨[1], [5]⟩] ["b"]) = false := ⟨rfl, rfl⟩

/-- C2 amended: for every pair of states whose left operand is not an
`ArrayCollectionState`, `==` holds exactly when the two states are the same
concrete variant with equal stored attribute maps and element-wise equal data
(numeric arrays by full-array value, nested states recursively); the
`ArrayCollectionState` override compares only the data tuples, ignoring
variant identity and attributes. -/
theorem claim2_eq_matches_spec (s t : State)
    (h : s.isArrayCollection = false) :
    stateEqOp s t = some true ↔ specStateEq s t = true := by
  have hop : stateEqOp s t = some (statesEqual s t) := by
    cases s with
    | arrayCollectionState ds ls => simp [State.isArrayCollection] at h
    | objectState o => rfl
    | arrayState a => rfl
    | dictState d => rfl
  rw [hop, specStateEq_eq_statesEqual s t]
  exact ⟨fun hh => by injection hh, fun hh => by rw [hh]⟩

/-- C2 witness: two equal `ObjectState`s compare equal on both sides of the
equivalence. -/
theorem claim2_eq_matches_spec_witness :
    ((State.objectState (.str "x")).isArrayCollection = false) ∧
    (stateEqOp (.objectState (.str "x")) (.objectState (.str "x")) = some true ↔
      specStateEq (.objectState (.str "x")) (.objectState (.str "x")) = true) :=
  ⟨rfl, claim2_eq_matches_spec (.objectState (.str "x"))
    (.objectState (.str "x")) rfl⟩

/-- C4 counterexample: `ArrayCollectionState.from_state` called directly with
a stored class tag naming the different registered variant `ArrayState`
raises no error and constructs an `ArrayCollectionState` instance. -/
theorem claim4_counterexample :
    (ArrayCollectionState.from_state
        [("__class__", .str "ArrayState"), ("labels", .strList [])]
        (some [])).1 = .ok ([], .arrayCollectionState [] []) := rfl

/-- C4 amended: for `ObjectState`, `ArrayState` and `DictState`, calling
`from_state` directly with a stored class tag naming a different registered
variant fails with an error and never constructs an instance;
`ArrayCollectionState.from_state` performs no tag check at all. -/
theorem claim4_tag_checked :
    (∀ (attrs : AttrMap) (data : Option PyObj) (c : String),
        attrs.lookup "__class__" = some (.str c) →
        c ∈ registeredClassNames → c ≠ "ObjectState" →
        ∃ e, ObjectState.from_state attrs data = .error e) ∧
    (∀ (attrs : AttrMap) (data : Option NdArr) (c : String),
        attrs.lookup "__class__" = some (.str c) →
        c ∈ registeredClassNames → c ≠ "ArrayState" →
        ∃ e, ArrayState.from_state attrs data = .error e) ∧
    (∀ (attrs : AttrMap) (data : Option DictData) (c : String),
        attrs.lookup "__class__" = some (.str c) →
        c ∈ registeredClassNames → c ≠ "DictState" →
        ∃ e, DictState.from_state attrs data = .error e) := by
  have hbase : ∀ (clsName : String) (attrs : AttrMap) (c : String),
      attrs.lookup "__class__" = some (.str c) → c ≠ clsName →
      ∃ e, StateBase.from_state_checks clsName attrs = .error e := by
    intro clsName attrs c hc hne
    unfold StateBase.from_state_checks
    simp only [hc]
    rw [if_neg (show ¬ AttrVal.str c = AttrVal.str clsName by simpa using hne)]
    by_cases hck : attrs.hasKey "class" = true
    · exact ⟨.valueError, by rw [if_pos hck]⟩
    · exact ⟨.keyError "class", by rw [if_neg hck]⟩
  refine ⟨?_, ?_, ?_⟩
  · intro attrs data c hc _ hne
    obtain ⟨e, he⟩ := hbase "ObjectState" attrs c hc hne
    exact ⟨e, by unfold ObjectState.from_state; rw [he]⟩
  · intro attrs data c hc _ hne
    obtain ⟨e, he⟩ := hbase "ArrayState" attrs c hc hne
    exact ⟨e, by unfold ArrayState.from_state; rw [he]⟩
  · intro attrs data c hc _ hne
    unfold DictState.from_state
    cases data with
    | none => exact ⟨.typeError, rfl⟩
    | some dd =>
        simp only [hc]
        rw [if_pos (show AttrVal.str c ≠ AttrVal.str "DictState"
          by simpa using hne)]
        exact ⟨.assertionError, rfl⟩

/-- C4 witness: each tag-checking variant rejects an attribute map whose
stored tag names another registered variant. -/
theorem claim4_tag_checked_witness :
    (∃ e, ObjectState.from_state [("__class__", .str "ArrayState")]
        Option.none = .error e) ∧
    (∃ e, ArrayState.from_state [("__class__", .str "DictState")]
        Option.none = .error e) ∧
    (∃ e, DictState.from_state [("__class__", .str "ObjectState")]
        (some (.dict .nil)) = .error e) :=
  ⟨claim4_tag_checked.1 _ Option.none "ArrayState" rfl (by decide) (by decide),
   claim4_tag_checked.2.1 _ Option.none "DictState" rfl (by decide) (by decide),
   claim4_tag_checked.2.2 _ (some (.dict .nil)) "ObjectState" rfl (by decide)
     (by decide)⟩

/-- C8 counterexample: a stored empty `DictState` whose recorded format
version is changed to 0 loads back successfully but with an empty warning
list — `DictState.from_state` never checks the version, so no
warning-level diagnostic is emitted. -/
theorem claim8_counterexample :
    ¬ (∀ (s : State) (tv : VersionTamper), s.valid = true →
        tv.recordedVersion ≠ 1 →
        ∀ (n : ZarrNode) (w : List Warn) (s2 : State),
          State.write_zarr s = .ok n →
          readZarr (n.tamperVersion tv) = .ok (w, s2) →
          Warn.versionMismatch ∈ w) := by
  intro hclaim
  have := hclaim (State.dictState .nil) (.set 0) rfl (by decide) _ [] _ rfl rfl
  simp at this

/-- C8 amended: loading a stored state whose recorded format version differs
from the current one (including a removed version attribute) always succeeds
in reconstructing the state and is never an error; the warning-level
diagnostic is emitted exactly when the variant loads through the inherited
`StateBase.from_state` — `ArrayState` and `ObjectState` — while
`ArrayCollectionState` and `DictState` load silently. -/
theorem claim8_version_tolerance (s : State) (tv : VersionTamper)
    (h : s.valid = true) (hv : tv.recordedVersion ≠ 1) :
    ∃ n, State.write_zarr s = .ok n ∧
      readZarr (n.tamperVersion tv) = .ok (warnsFor s tv, s) ∧
      (s.usesBaseFromState = true → warnsFor s tv = [Warn.versionMismatch]) ∧
      (s.usesBaseFromState = false → warnsFor s tv = []) := by
  obtain ⟨n, hw, hr⟩ := write_read_tampered s h tv
  refine ⟨n, hw, hr, fun hb => ?_, fun hb => ?_⟩
  · simp [warnsFor, hb, hv]
  · simp [warnsFor, hb]

/-- C8 witness: an `ObjectState` stored with version 0 loads back with the
version-mismatch warning; a `DictState` with a removed version attribute
loads back silently; neither load errors. -/
theorem claim8_version_tolerance_witness :
    (∃ n, State.write_zarr (State.objectState (.str "x")) = .ok n ∧
        readZarr (n.tamperVersion (.set 0)) =
          .ok (warnsFor (State.objectState (.str "x")) (.set 0),
            State.objectState (.str "x")) ∧
        warnsFor (State.objectState (.str "x")) (.set 0) =
          [Warn.versionMismatch]) ∧
    (∃ n, State.write_zarr (State.dictState .nil) = .ok n ∧
        readZarr (n.tamperVersion .remove) =
          .ok (warnsFor (State.dictState .nil) .remove,
            State.dictState .nil) ∧
        warnsFor (State.dictState .nil) .remove = []) := by
  constructor
  · obtain ⟨n, h1, h2, h3, -⟩ := claim8_version_tolerance
      (State.objectState (.str "x")) (.set 0) rfl (by decide)
    exact ⟨n, h1, h2, h3 rfl⟩
  · obtain ⟨n, h1, h2, -, h4⟩ := claim8_version_tolerance
      (State.dictState .nil) .remove rfl (by decide)
    exact ⟨n, h1, h2, h4 rfl⟩
